import Mathlib

/-!
Shallow embedding of the browser-side compile controller of the repository
(files `src/unnamed/part_000` and `src/script.js`).  The embedding follows
`src/unnamed/part_000`, which is the richer of the two variants (it adds the
error-location extraction, the marker registry and the bytecode highlighter);
`src/script.js` agrees with it on every behavior modelled here.

The DOM, CodeMirror and the network are modelled as explicit state:
`UIState` carries the fields of the page the script mutates, and the single
`fetch` suspension point of `compile` is modelled by splitting the function
into a synchronous prefix (`compileStart`, everything before `await fetch`)
and a continuation (`compileFinish`, the response/catch/finally handling),
with the network outcome supplied as a `FetchOutcome` value.  Requests issued
are returned explicitly instead of performed.
-/

namespace CompilerUI

/-! ### JavaScript string primitives -/

/-- The ECMAScript white-space and line-terminator set used by
`String.prototype.trim`. -/
def isJSWhitespace (c : Char) : Bool :=
  c = ' ' || c = '\t' || c = '\n' || c = '\r' ||
  c.val = 11 || c.val = 12 || c.val = 0xA0 || c.val = 0x1680 ||
  (0x2000 ≤ c.val && c.val ≤ 0x200A) || c.val = 0x2028 || c.val = 0x2029 ||
  c.val = 0x202F || c.val = 0x205F || c.val = 0x3000 || c.val = 0xFEFF

/-- JavaScript `String.prototype.trim`. -/
def trimJS (s : String) : String :=
  ⟨((s.data.dropWhile isJSWhitespace).reverse.dropWhile isJSWhitespace).reverse⟩

/-- JavaScript truthiness of a possibly-absent string value:
`undefined` and the empty string are falsy. -/
def truthyStr : Option String → Bool
  | none => false
  | some s => s ≠ ""

/-- JavaScript `v || dflt` for a possibly-absent string value
(as in `data.result || "No output"`). -/
def jsOrElseStr (v : Option String) (dflt : String) : String :=
  if truthyStr v then v.getD "" else dflt

/-- Decimal value of a digit string, as an integer.  Models `parseInt(s, 10)`
on the all-digit capture groups produced by the `\d+` regex groups below
(idealized to exact integers; the doubles of the host only diverge beyond
2^53, far outside the line/column numbers at play). -/
def decIntVal (cs : List Char) : Int :=
  cs.foldl (fun acc c => acc * 10 + ((c.toNat : Int) - 48)) 0

/-- `isNaN(parseInt(cs, 10))`: `parseInt` yields `NaN` exactly when the input
has no leading decimal digit. -/
def jsParseIntNaN (cs : List Char) : Bool :=
  (cs.takeWhile Char.isDigit).isEmpty

/-- JavaScript `s.padStart(2, "0")`. -/
def padStart2 (s : String) : String :=
  if s.length < 2 then String.mk (List.replicate (2 - s.length) '0') ++ s else s

/-! ### Diagnostic parser (`showErrorWithHighlighting`, part_000 lines 210-235)

The error message is matched against the regex `/at (\d+):(\d+)/` (no `g`
flag: first match only).  `matchAtPat` tries the pattern at the head of a
character list; `findAtMatch` scans left to right for the first position
where it matches, exactly as the host regex engine does.  Greedy `\d+`
followed by the non-digit `:` or `)` never needs backtracking, so maximal
munch (`takeWhile`) is an exact model. -/

/-- Match `at (\d+):(\d+)` at the head of the list, returning the two capture
groups on success. -/
def matchAtPat (l : List Char) : Option (List Char × List Char) :=
  match l with
  | c1 :: c2 :: c3 :: rest =>
    if c1 = 'a' ∧ c2 = 't' ∧ c3 = ' ' then
      let d1 := rest.takeWhile Char.isDigit
      if d1 = [] then none
      else
        match rest.dropWhile Char.isDigit with
        | c4 :: r2 =>
          if c4 = ':' then
            let d2 := r2.takeWhile Char.isDigit
            if d2 = [] then none else some (d1, d2)
          else none
        | [] => none
    else none
  | _ => none

/-- Leftmost match of `at (\d+):(\d+)`, as `errorMessage.match(...)`. -/
def findAtMatch : List Char → Option (List Char × List Char)
  | [] => none
  | c :: rest =>
    match matchAtPat (c :: rest) with
    | some r => some r
    | none => findAtMatch rest

/-- The extracted 0-based source position
(`line = parseInt(m[1]) - 1`, `col = parseInt(m[2]) - 1`). -/
structure DiagnosticLocation where
  line : Int
  column : Option Int
  deriving DecidableEq

/-- The spec's `locate`: position extraction of `showErrorWithHighlighting`
(part_000 lines 214-218 and the `isNaN(col)` guard of line 225). -/
def locate (text : String) : Option DiagnosticLocation :=
  match findAtMatch text.data with
  | none => none
  | some (g1, g2) =>
    some { line := decIntVal g1 - 1,
           column := if jsParseIntNaN g2 then none else some (decIntVal g2 - 1) }

/-- The text contains the substring pattern `at <line>:<column>` with decimal
integers: the declarative counterpart of the regex `/at (\d+):(\d+)/`. -/
def ContainsAtPattern (text : String) : Prop :=
  ∃ pre a b post : List Char,
    text.data = pre ++ 'a' :: 't' :: ' ' :: (a ++ ':' :: (b ++ post)) ∧
    a ≠ [] ∧ b ≠ [] ∧ (∀ c ∈ a, c.isDigit = true) ∧ (∀ c ∈ b, c.isDigit = true)

/-! ### Bytecode highlighter (`formatBytecode`/`highlightBytecode`, lines 183-207)

`highlightBytecode` chains four global `String.replace` passes.  `jsReplace`
models one `/.../g` replace pass: scan left to right, at each position try
the matcher; on a match emit the substituted replacement and resume after the
matched text (replacements are not rescanned by the same pass), otherwise
copy one character.  All four patterns match at least one character, so fuel
equal to the input length never runs out. -/

/-- Strip an expected literal from the head of the list. -/
def dropLit : List Char → List Char → Option (List Char)
  | [], l => some l
  | _ :: _, [] => none
  | p :: ps, c :: cs => if c = p then dropLit ps cs else none

/-- One step list: fuel-indexed global-replace scan.  A matcher returns the
replacement text and the number of characters consumed (always ≥ 1 for the
patterns below). -/
def jsReplaceGo (m : List Char → Option (List Char × Nat)) : Nat → List Char → List Char
  | 0, l => l
  | _ + 1, [] => []
  | fuel + 1, c :: rest =>
    match m (c :: rest) with
    | some (rep, consumed) => rep ++ jsReplaceGo m fuel (rest.drop (consumed - 1))
    | none => c :: jsReplaceGo m fuel rest

/-- One global `String.replace(/pat/g, repl)` pass. -/
def jsReplace (m : List Char → Option (List Char × Nat)) (l : List Char) : List Char :=
  jsReplaceGo m l.length l

/-- `/Push\(([^)]+)\)/g → 'Push(<span class="bytecode-value">$1</span>)'`. -/
def matchPush (l : List Char) : Option (List Char × Nat) :=
  match dropLit "Push(".data l with
  | none => none
  | some r =>
    let v := r.takeWhile (· != ')')
    if v = [] then none
    else
      match r.dropWhile (· != ')') with
      | ')' :: _ =>
        some ("Push(<span class=\"bytecode-value\">".data ++ v ++ "</span>)".data,
              5 + v.length + 1)
      | _ => none

/-- One alternative of `/(Add|Subtract|Multiply|Divide|Negate)/g`. -/
def matchOpName (name : List Char) (l : List Char) : Option (List Char × Nat) :=
  match dropLit name l with
  | none => none
  | some _ =>
    some ("<span class=\"bytecode-op\">".data ++ name ++ "</span>".data, name.length)

/-- `/(Add|Subtract|Multiply|Divide|Negate)/g → '<span class="bytecode-op">$1</span>'`.
The alternatives are tried left to right, as the host engine does; none is a
prefix of another, so the order is immaterial. -/
def matchOp (l : List Char) : Option (List Char × Nat) :=
  matchOpName "Add".data l <|> matchOpName "Subtract".data l <|>
  matchOpName "Multiply".data l <|> matchOpName "Divide".data l <|>
  matchOpName "Negate".data l

/-- The five alternatives of the operator pattern, in the order the host
engine tries them. -/
def opNamesL : List (List Char) :=
  ["Add".data, "Subtract".data, "Multiply".data, "Divide".data, "Negate".data]

/-- The substituted replacement `'<span class="bytecode-op">$1</span>'` at a
given capture. -/
def opTag (name : List Char) : List Char :=
  "<span class=\"bytecode-op\">".data ++ name ++ "</span>".data

/-- One keyword alternative of `/(Jump|JumpIfFalse)\((\d+)\)/g`. -/
def matchJumpKw (kw : List Char) (l : List Char) : Option (List Char × Nat) :=
  match dropLit (kw ++ ['(']) l with
  | none => none
  | some r =>
    let d := r.takeWhile Char.isDigit
    if d = [] then none
    else
      match r.dropWhile Char.isDigit with
      | ')' :: _ =>
        some ("<span class=\"bytecode-flow\">".data ++ kw ++
                "</span>(<span class=\"bytecode-number\">".data ++ d ++ "</span>)".data,
              kw.length + 1 + d.length + 1)
      | _ => none

/-- `/(Jump|JumpIfFalse)\((\d+)\)/g`.  The host engine tries `Jump` first and
backtracks into `JumpIfFalse` when the parenthesis fails; trying the two
complete alternatives in order is equivalent. -/
def matchJump (l : List Char) : Option (List Char × Nat) :=
  matchJumpKw "Jump".data l <|> matchJumpKw "JumpIfFalse".data l

/-- One keyword alternative of `/(Load|Store)Variable\("([^"]+)"\)/g`. -/
def matchVarKw (kw : List Char) (l : List Char) : Option (List Char × Nat) :=
  match dropLit (kw ++ "Variable(\"".data) l with
  | none => none
  | some r =>
    let nm := r.takeWhile (· != '"')
    if nm = [] then none
    else
      match r.dropWhile (· != '"') with
      | '"' :: ')' :: _ =>
        some ("<span class=\"bytecode-var\">".data ++ kw ++ "Variable</span>(\"".data ++
                nm ++ "\")".data,
              kw.length + 10 + nm.length + 2)
      | _ => none

/-- `/(Load|Store)Variable\("([^"]+)"\)/g →
'<span class="bytecode-var">$1Variable</span>("$2")'`. -/
def matchVar (l : List Char) : Option (List Char × Nat) :=
  matchVarKw "Load".data l <|> matchVarKw "Store".data l

/-- `highlightBytecode` (part_000 lines 200-207): the four chained global
replace passes, in source order. -/
def highlightBytecode (s : String) : String :=
  ⟨jsReplace matchVar (jsReplace matchJump (jsReplace matchOp (jsReplace matchPush s.data)))⟩

/-- One rendered bytecode line of `formatBytecode` (the template literal of
lines 192-195, whitespace included). -/
def bytecodeLineHTML (idx : Nat) (line : String) : String :=
  "<div class=\"bytecode-line\">\n        <span class=\"bytecode-index\">" ++
    padStart2 (toString idx) ++ "</span>\n        " ++
    highlightBytecode line ++ "\n      </div>"

/-- `formatBytecode` (part_000 lines 184-197). -/
def formatBytecode (bytecode : Option (List String)) : String :=
  match bytecode with
  | none => "<em>No bytecode generated</em>"
  | some lines =>
    if lines.length = 0 then "<em>No bytecode generated</em>"
    else String.join (lines.enum.map (fun p => bytecodeLineHTML p.1 p.2))

/-! ### UI state, marker registry and the controller -/

/-- What a marker annotates: `editor.addLineClass(line, "background",
"error-line")` or `editor.markText(from, to, ...)`. -/
inductive MarkerSpec where
  | lineHighlight (line : Int)
  | pointHighlight (line chFrom chTo : Int)
  deriving DecidableEq

/-- An opaque marker handle: a fresh identity plus what it annotates. -/
structure Marker where
  id : Nat
  spec : MarkerSpec
  deriving DecidableEq

/-- The page state touched by the script: the editor contents, the output
panels, the error panel, the spinner/`compile-btn` loading pair, the editor's
visible annotations, the `errorMarkers` registry (module-level array,
part_000 line 2) and a fresh-handle counter. -/
structure UIState where
  editorValue : String
  resultOutput : String
  bytecodeOutput : String
  errorPanelVisible : Bool
  errorContent : String
  spinnerVisible : Bool
  compileBtnDisabled : Bool
  editorMarks : List Marker
  errorMarkers : List Marker
  nextMarkerId : Nat
  deriving DecidableEq

/-- `showError` (part_000 lines 261-269; the delayed `scrollIntoView` is a
pure view effect and is not modelled). -/
def showError (message : String) (s : UIState) : UIState :=
  { s with errorPanelVisible := true, errorContent := message }

/-- `hideError` (lines 272-274). -/
def hideError (s : UIState) : UIState :=
  { s with errorPanelVisible := false }

/-- `setLoadingState` (lines 277-285). -/
def setLoadingState (isLoading : Bool) (s : UIState) : UIState :=
  if isLoading then { s with spinnerVisible := true, compileBtnDisabled := true }
  else { s with spinnerVisible := false, compileBtnDisabled := false }

/-- `clearErrorMarkers` (lines 238-247): every tracked handle is removed from
the editor view (`marker.clear()` / `removeLineClass`) and the registry array
is reset to `[]`. -/
def clearErrorMarkers (s : UIState) : UIState :=
  { s with editorMarks := s.editorMarks.filter (fun m => decide (m ∉ s.errorMarkers)),
           errorMarkers := [] }

/-- The marker-creating tail of `showErrorWithHighlighting` (lines 216-233):
on a resolved location, add a line highlight and push its handle; if the
column parsed, also add a point highlight over one character and push it.
(`scrollIntoView` is a pure view effect and is not modelled.) -/
def addLocMarkers (loc : Option DiagnosticLocation) (s : UIState) : UIState :=
  match loc with
  | none => s
  | some d =>
    let lineM : Marker := { id := s.nextMarkerId, spec := .lineHighlight d.line }
    let s1 := { s with editorMarks := s.editorMarks ++ [lineM],
                       errorMarkers := s.errorMarkers ++ [lineM],
                       nextMarkerId := s.nextMarkerId + 1 }
    match d.column with
    | none => s1
    | some col =>
      let pointM : Marker := { id := s1.nextMarkerId,
                               spec := .pointHighlight d.line col (col + 1) }
      { s1 with editorMarks := s1.editorMarks ++ [pointM],
                errorMarkers := s1.errorMarkers ++ [pointM],
                nextMarkerId := s1.nextMarkerId + 1 }

/-- `showErrorWithHighlighting` (lines 210-235). -/
def showErrorWithHighlighting (message : String) (s : UIState) : UIState :=
  addLocMarkers (locate message) (showError message s)

/-- The JSON body of the `POST /compile` request (lines 153-156). -/
structure CompileRequest where
  source : String
  language : String
  deriving DecidableEq

/-- The parsed response body.  `error`, `result` and `bytecode` are each
independently present or absent, exactly as on a parsed JSON object. -/
structure CompileResponse where
  error : Option String
  result : Option String
  bytecode : Option (List String)
  deriving DecidableEq

/-- How the awaited `fetch`/`response.json()` pair resolves: a parsed
response, or a thrown exception (network failure, malformed body) carrying
its `error.message`. -/
inductive FetchOutcome where
  | ok (data : CompileResponse)
  | exn (message : String)
  deriving DecidableEq

def emptyInputMsg : String := "Please enter some code to compile."

def compilingMsg : String := "🔄 Compiling your code..."

def generatingMsg : String := "⚙️ Generating bytecode..."

def failResultMsg : String := "❌ Compilation failed. Check the error below."

def failBytecodeMsg : String := "❌ No bytecode generated due to compilation error."

def netFailResultMsg : String := "❌ Failed to connect to the server."

def netFailBytecodeMsg : String := "❌ Connection error."

/-- The success-path result line (line 166):
`<span class="success-icon">✅</span> Result:
<span class="result-value">${data.result || "No output"}</span>`. -/
def successResultHTML (result : Option String) : String :=
  "<span class=\"success-icon\">✅</span> Result: <span class=\"result-value\">" ++
    jsOrElseStr result "No output" ++ "</span>"

/-- The synchronous prefix of `compile` (part_000 lines 129-157): trim, empty
guard, clear markers, enter loading state, hide the error panel, set the
pending placeholders, and issue the request.  Returns the request the
`fetch` call sends, or `none` when the guard fired and no request is made. -/
def compileStart (s : UIState) : UIState × Option CompileRequest :=
  let code := trimJS s.editorValue
  if code = "" then
    (showError emptyInputMsg s, none)
  else
    let s1 := clearErrorMarkers s
    let s2 := setLoadingState true s1
    let s3 := hideError s2
    let s4 := { s3 with resultOutput := compilingMsg, bytecodeOutput := generatingMsg }
    (s4, some { source := code, language := "custom" })

/-- The continuation of `compile` after the suspension point (lines 159-180):
the `data.error` dispatch, the `catch` branch and the unconditional
`finally { setLoadingState(false) }`. -/
def compileFinish (s : UIState) (o : FetchOutcome) : UIState :=
  let s1 :=
    match o with
    | .ok data =>
      if truthyStr data.error then
        let se := showErrorWithHighlighting (data.error.getD "") s
        { se with resultOutput := failResultMsg, bytecodeOutput := failBytecodeMsg }
      else
        { s with resultOutput := successResultHTML data.result,
                 bytecodeOutput := formatBytecode data.bytecode }
    | .exn message =>
      let se := showError ("Network error: " ++ message) s
      { se with resultOutput := netFailResultMsg, bytecodeOutput := netFailBytecodeMsg }
  setLoadingState false s1

/-- One whole `compile` run: the synchronous prefix, then — when a request
went out — the continuation on the network outcome.  The second component
lists the network requests the run issued. -/
def compileAttempt (s : UIState) (o : FetchOutcome) : UIState × List CompileRequest :=
  match compileStart s with
  | (s1, none) => (s1, [])
  | (s1, some req) => (compileFinish s1 o, [req])

/-- A keyboard event, as seen by the document-level keydown listener. -/
structure KeyEvent where
  ctrlKey : Bool
  metaKey : Bool
  key : String
  deriving DecidableEq

/-- The guard of the keydown listener (part_000 lines 328-334). -/
def keydownTriggersCompile (e : KeyEvent) : Bool :=
  (e.ctrlKey || e.metaKey) && e.key == "Enter"

/-- The keydown listener itself: on Ctrl/Cmd+Enter it calls `compile()`
unconditionally — there is no check of the loading state or of the disabled
trigger before entering the controller. -/
def keydownStep (e : KeyEvent) (s : UIState) : UIState × Option CompileRequest :=
  if keydownTriggersCompile e then compileStart s else (s, none)

/-- A concrete idle page with a nonempty editor. -/
def idleUI : UIState :=
  { editorValue := "int x = 1;"
    resultOutput := ""
    bytecodeOutput := ""
    errorPanelVisible := false
    errorContent := ""
    spinnerVisible := false
    compileBtnDisabled := false
    editorMarks := []
    errorMarkers := []
    nextMarkerId := 0 }

/-- The page mid-attempt: the synchronous prefix has run and the `fetch` of
the first attempt is still in flight (`Compiling`). -/
def inFlightUI : UIState := (compileStart idleUI).1

/-- A stale marker handle left over from a previous failed attempt. -/
def staleMarker : Marker := { id := 0, spec := .lineHighlight 1 }

/-- A page whose editor holds only whitespace, with a stale marker from the
previous failed attempt still tracked and visible. -/
def emptyEditorUI : UIState :=
  { editorValue := "  \n  "
    resultOutput := "old result"
    bytecodeOutput := "old bytecode"
    errorPanelVisible := false
    errorContent := ""
    spinnerVisible := false
    compileBtnDisabled := false
    editorMarks := [staleMarker]
    errorMarkers := [staleMarker]
    nextMarkerId := 1 }

/-! ### Helper lemmas -/

theorem compileStart_nonempty (s : UIState) (h : ¬ trimJS s.editorValue = "") :
    compileStart s =
      ({ s with editorMarks := s.editorMarks.filter (fun m => decide (m ∉ s.errorMarkers)),
                errorMarkers := [],
                spinnerVisible := true,
                compileBtnDisabled := true,
                errorPanelVisible := false,
                resultOutput := compilingMsg,
                bytecodeOutput := generatingMsg },
       some { source := trimJS s.editorValue, language := "custom" }) := by
  simp [compileStart, clearErrorMarkers, setLoadingState, hideError, h]

theorem compileAttempt_empty (s : UIState) (o : FetchOutcome)
    (h : trimJS s.editorValue = "") :
    compileAttempt s o = (showError emptyInputMsg s, []) := by
  simp [compileAttempt, compileStart, h]

theorem addLocMarkers_resultOutput :
    ∀ (loc : Option DiagnosticLocation) (s : UIState),
      (addLocMarkers loc s).resultOutput = s.resultOutput
  | none, _ => rfl
  | some ⟨_, none⟩, _ => rfl
  | some ⟨_, some _⟩, _ => rfl

theorem addLocMarkers_bytecodeOutput :
    ∀ (loc : Option DiagnosticLocation) (s : UIState),
      (addLocMarkers loc s).bytecodeOutput = s.bytecodeOutput
  | none, _ => rfl
  | some ⟨_, none⟩, _ => rfl
  | some ⟨_, some _⟩, _ => rfl

theorem addLocMarkers_errorContent :
    ∀ (loc : Option DiagnosticLocation) (s : UIState),
      (addLocMarkers loc s).errorContent = s.errorContent
  | none, _ => rfl
  | some ⟨_, none⟩, _ => rfl
  | some ⟨_, some _⟩, _ => rfl

theorem addLocMarkers_errorPanelVisible :
    ∀ (loc : Option DiagnosticLocation) (s : UIState),
      (addLocMarkers loc s).errorPanelVisible = s.errorPanelVisible
  | none, _ => rfl
  | some ⟨_, none⟩, _ => rfl
  | some ⟨_, some _⟩, _ => rfl

theorem addLocMarkers_nextMarkerId :
    ∀ (loc : Option DiagnosticLocation) (s : UIState),
      s.nextMarkerId ≤ (addLocMarkers loc s).nextMarkerId
  | none, _ => Nat.le_refl _
  | some ⟨_, none⟩, _ => Nat.le_succ _
  | some ⟨_, some _⟩, _ => Nat.le_succ_of_le (Nat.le_succ _)

/-! ### Claim theorems -/

/-- C2: when the source text trims to empty, the whole run issues no network
request, surfaces the `EmptyInputError` message in the error panel, and is
exactly `showError` applied to the incoming state — in particular the loading
state (trigger affordance) is untouched. -/
theorem C2_empty_input (s : UIState) (o : FetchOutcome)
    (h : trimJS s.editorValue = "") :
    (compileAttempt s o).2 = [] ∧
    (compileAttempt s o).1 = showError emptyInputMsg s ∧
    (compileAttempt s o).1.errorPanelVisible = true ∧
    (compileAttempt s o).1.errorContent = emptyInputMsg ∧
    (compileAttempt s o).1.compileBtnDisabled = s.compileBtnDisabled := by
  rw [compileAttempt_empty s o h]
  simp [showError]

/-- C2 witness: a concrete whitespace-only editor. -/
theorem C2_empty_input_witness :
    (compileAttempt emptyEditorUI (FetchOutcome.exn "down")).2 = [] ∧
    (compileAttempt emptyEditorUI (FetchOutcome.exn "down")).1 =
      showError emptyInputMsg emptyEditorUI ∧
    (compileAttempt emptyEditorUI (FetchOutcome.exn "down")).1.errorPanelVisible = true ∧
    (compileAttempt emptyEditorUI (FetchOutcome.exn "down")).1.errorContent = emptyInputMsg ∧
    (compileAttempt emptyEditorUI (FetchOutcome.exn "down")).1.compileBtnDisabled =
      emptyEditorUI.compileBtnDisabled :=
  C2_empty_input emptyEditorUI (FetchOutcome.exn "down") (by decide)

/-- C10: a run on whitespace-only input leaves the marker registry, the
editor's visible annotations and both output panels exactly as they were —
stale markers of the previous attempt are not cleared. -/
theorem C10_empty_input_frame (s : UIState) (o : FetchOutcome)
    (h : trimJS s.editorValue = "") :
    (compileAttempt s o).1.errorMarkers = s.errorMarkers ∧
    (compileAttempt s o).1.editorMarks = s.editorMarks ∧
    (compileAttempt s o).1.resultOutput = s.resultOutput ∧
    (compileAttempt s o).1.bytecodeOutput = s.bytecodeOutput := by
  rw [compileAttempt_empty s o h]
  simp [showError]

/-- C10 witness: the stale marker of `emptyEditorUI` survives the call. -/
theorem C10_empty_input_frame_witness :
    (compileAttempt emptyEditorUI (FetchOutcome.exn "down")).1.errorMarkers =
      emptyEditorUI.errorMarkers ∧
    (compileAttempt emptyEditorUI (FetchOutcome.exn "down")).1.editorMarks =
      emptyEditorUI.editorMarks ∧
    (compileAttempt emptyEditorUI (FetchOutcome.exn "down")).1.resultOutput =
      emptyEditorUI.resultOutput ∧
    (compileAttempt emptyEditorUI (FetchOutcome.exn "down")).1.bytecodeOutput =
      emptyEditorUI.bytecodeOutput :=
  C10_empty_input_frame emptyEditorUI (FetchOutcome.exn "down") (by decide)

/-- C9: every run on non-empty input issues exactly one request, whose body
carries the trimmed source and the `"custom"` language tag, whatever the
outcome (in particular: no retry on failure or exception). -/
theorem C9_single_request (s : UIState) (o : FetchOutcome)
    (h : ¬ trimJS s.editorValue = "") :
    (compileAttempt s o).2 = [{ source := trimJS s.editorValue, language := "custom" }] := by
  unfold compileAttempt
  rw [compileStart_nonempty s h]

/-- C9 witness: a concrete non-empty input, exercised on an exception outcome
(the no-retry case). -/
theorem C9_single_request_witness :
    (compileAttempt idleUI (FetchOutcome.exn "down")).2 =
      [{ source := trimJS idleUI.editorValue, language := "custom" }] :=
  C9_single_request idleUI (FetchOutcome.exn "down") (by decide)

/-- C5: on non-empty input, the `finally` step leaves the spinner hidden and
the trigger re-enabled on every exit path — success, failure response, or a
thrown transport exception. -/
theorem C5_trigger_restored (s : UIState) (o : FetchOutcome)
    (h : ¬ trimJS s.editorValue = "") :
    (compileAttempt s o).1.compileBtnDisabled = false ∧
    (compileAttempt s o).1.spinnerVisible = false := by
  unfold compileAttempt
  rw [compileStart_nonempty s h]
  simp [compileFinish, setLoadingState]

/-- C5 witness: the exception path of a concrete run re-enables the trigger. -/
theorem C5_trigger_restored_witness :
    (compileAttempt idleUI (FetchOutcome.exn "down")).1.compileBtnDisabled = false ∧
    (compileAttempt idleUI (FetchOutcome.exn "down")).1.spinnerVisible = false :=
  C5_trigger_restored idleUI (FetchOutcome.exn "down") (by decide)

/-- C4: a response with a non-empty `error` field always takes the failure
path — error text rendered verbatim in the error panel, fixed placeholders in
the result and bytecode surfaces — regardless of any `result` or `bytecode`
field also present. -/
theorem C4_error_field_precedence (s : UIState) (data : CompileResponse) (e : String)
    (he : data.error = some e) (hne : e ≠ "") :
    (compileFinish s (.ok data)).resultOutput = failResultMsg ∧
    (compileFinish s (.ok data)).bytecodeOutput = failBytecodeMsg ∧
    (compileFinish s (.ok data)).errorPanelVisible = true ∧
    (compileFinish s (.ok data)).errorContent = e := by
  have ht : truthyStr (some e) = true := by simp [truthyStr, hne]
  simp [compileFinish, ht, setLoadingState, showErrorWithHighlighting, showError, he,
        addLocMarkers_resultOutput, addLocMarkers_bytecodeOutput,
        addLocMarkers_errorContent, addLocMarkers_errorPanelVisible]

theorem addLocMarkers_markers (loc : Option DiagnosticLocation) (s : UIState) :
    (addLocMarkers loc s).errorMarkers.length ≤ s.errorMarkers.length + 2 ∧
    ∀ m ∈ (addLocMarkers loc s).errorMarkers, m ∈ s.errorMarkers ∨ s.nextMarkerId ≤ m.id := by
  rcases loc with _ | ⟨line, _ | col⟩
  · exact ⟨by simp [addLocMarkers], fun m hm => Or.inl hm⟩
  · constructor
    · simp [addLocMarkers]
    · intro m hm
      simp only [addLocMarkers, List.mem_append, List.mem_singleton] at hm
      rcases hm with hm | hm
      · exact Or.inl hm
      · subst hm; exact Or.inr (Nat.le_refl _)
  · constructor
    · simp [addLocMarkers]
    · intro m hm
      simp only [addLocMarkers, List.append_assoc, List.mem_append,
        List.mem_singleton] at hm
      rcases hm with hm | hm | hm
      · exact Or.inl hm
      · subst hm; exact Or.inr (Nat.le_refl _)
      · subst hm; exact Or.inr (Nat.le_succ _)

theorem compileFinish_errorMarkers (s1 : UIState) (o : FetchOutcome) :
    (compileFinish s1 o).errorMarkers =
      match o with
      | .ok data =>
        if truthyStr data.error then
          (addLocMarkers (locate (data.error.getD ""))
            (showError (data.error.getD "") s1)).errorMarkers
        else s1.errorMarkers
      | .exn _ => s1.errorMarkers := by
  cases o with
  | exn message => simp [compileFinish, setLoadingState, showError]
  | ok data =>
    by_cases ht : truthyStr data.error = true
    · simp [compileFinish, ht, setLoadingState, showErrorWithHighlighting]
    · simp [compileFinish, ht, setLoadingState]

theorem compileFinish_fresh (s1 : UIState) (o : FetchOutcome) (h : s1.errorMarkers = []) :
    (compileFinish s1 o).errorMarkers.length ≤ 2 ∧
    ∀ m ∈ (compileFinish s1 o).errorMarkers, s1.nextMarkerId ≤ m.id := by
  rw [compileFinish_errorMarkers s1 o]
  cases o with
  | exn message => simp [h]
  | ok data =>
    by_cases ht : truthyStr data.error = true
    · simp only [ht, if_true]
      obtain ⟨hl, hmem⟩ := addLocMarkers_markers (locate (data.error.getD ""))
        (showError (data.error.getD "") s1)
      have hse : (showError (data.error.getD "") s1).errorMarkers = [] := by
        simp [showError, h]
      have hsn : (showError (data.error.getD "") s1).nextMarkerId = s1.nextMarkerId := by
        simp [showError]
      constructor
      · rw [hse] at hl; simpa using hl
      · intro m hm2
        rcases hmem m hm2 with hin | hid
        · rw [hse] at hin; cases hin
        · rwa [hsn] at hid
    · simp [ht, h]

theorem compileAttempt_nonempty_fst (s : UIState) (o : FetchOutcome)
    (h : ¬ trimJS s.editorValue = "") :
    (compileAttempt s o).1 = compileFinish (compileStart s).1 o := by
  unfold compileAttempt
  rcases hs : compileStart s with ⟨s1, req⟩
  rcases req with _ | r
  · rw [compileStart_nonempty s h] at hs
    simp at hs
  · rfl

theorem compileStart_registry (s : UIState) (h : ¬ trimJS s.editorValue = "") :
    (compileStart s).1.errorMarkers = [] ∧
    (compileStart s).1.nextMarkerId = s.nextMarkerId := by
  rw [compileStart_nonempty s h]
  exact ⟨rfl, rfl⟩

/-- C6: the marker registry holds at most one attempt's worth of markers:
`clear()` empties the tracked set and removes every tracked handle from the
editor view, calling it twice is harmless, every non-empty attempt clears the
registry before any new marker exists, and after a whole attempt the registry
holds at most the two markers of the current attempt, all freshly created. -/
theorem C6_marker_registry :
    (∀ s : UIState, (clearErrorMarkers s).errorMarkers = []) ∧
    (∀ s : UIState, clearErrorMarkers (clearErrorMarkers s) = clearErrorMarkers s) ∧
    (∀ s : UIState, ∀ m ∈ s.errorMarkers, m ∉ (clearErrorMarkers s).editorMarks) ∧
    (∀ s : UIState, ¬ trimJS s.editorValue = "" → (compileStart s).1.errorMarkers = []) ∧
    (∀ (s : UIState) (o : FetchOutcome), ¬ trimJS s.editorValue = "" →
      (compileAttempt s o).1.errorMarkers.length ≤ 2 ∧
      ∀ m ∈ (compileAttempt s o).1.errorMarkers, s.nextMarkerId ≤ m.id) := by
  refine ⟨fun s => rfl, ?_, ?_, ?_, ?_⟩
  · intro s
    simp [clearErrorMarkers, List.filter_filter]
  · intro s m hm hmem
    rw [clearErrorMarkers] at hmem
    simp only [List.mem_filter, decide_eq_true_eq] at hmem
    exact hmem.2 hm
  · intro s h
    exact (compileStart_registry s h).1
  · intro s o h
    rw [compileAttempt_nonempty_fst s o h]
    obtain ⟨hm, hn⟩ := compileStart_registry s h
    obtain ⟨h1, h2⟩ := compileFinish_fresh ((compileStart s).1) o hm
    exact ⟨h1, fun m hmem => hn ▸ h2 m hmem⟩

/-- C6 witness: a concrete failed attempt over a state holding a stale
marker: the registry ends with at most the two fresh markers of this
attempt. -/
theorem C6_marker_registry_witness :
    (compileAttempt { emptyEditorUI with editorValue := "int x = 1;" }
        (.ok ⟨some "boom at 2:5", none, none⟩)).1.errorMarkers.length ≤ 2 ∧
    (compileStart { emptyEditorUI with editorValue := "int x = 1;" }).1.errorMarkers = [] := by
  constructor
  · exact ((C6_marker_registry.2.2.2.2
      { emptyEditorUI with editorValue := "int x = 1;" }
      (.ok ⟨some "boom at 2:5", none, none⟩) (by decide))).1
  · exact C6_marker_registry.2.2.2.1
      { emptyEditorUI with editorValue := "int x = 1;" } (by decide)

/-- C4 witness: a response carrying an error together with a result and a
bytecode listing is still treated as a failure. -/
theorem C4_error_field_precedence_witness :
    (compileFinish idleUI (.ok ⟨some "boom at 2:5", some "42", some ["Push(1)"]⟩)).resultOutput =
      failResultMsg ∧
    (compileFinish idleUI (.ok ⟨some "boom at 2:5", some "42", some ["Push(1)"]⟩)).bytecodeOutput =
      failBytecodeMsg ∧
    (compileFinish idleUI (.ok ⟨some "boom at 2:5", some "42", some ["Push(1)"]⟩)).errorPanelVisible =
      true ∧
    (compileFinish idleUI (.ok ⟨some "boom at 2:5", some "42", some ["Push(1)"]⟩)).errorContent =
      "boom at 2:5" :=
  C4_error_field_precedence idleUI ⟨some "boom at 2:5", some "42", some ["Push(1)"]⟩
    "boom at 2:5" rfl (by decide)

/-- C7 counterexample: the claim says the "No output" placeholder appears
only when the `result` field is absent, but a response whose `result` is
present yet falsy (the empty string) also renders the placeholder, because
the code uses `data.result || "No output"`. -/
theorem C7_counterexample :
    (⟨none, some "", some []⟩ : CompileResponse).result ≠ none ∧
    (compileFinish idleUI (.ok ⟨none, some "", some []⟩)).resultOutput =
      "<span class=\"success-icon\">✅</span> Result: <span class=\"result-value\">No output</span>" := by
  decide

/-- C7 (amended): on the success path the rendered result line interpolates
`data.result || "No output"`: the response's result value when it is truthy,
and the literal "No output" placeholder when the field is absent or falsy
(for instance the empty string). -/
theorem C7_success_result (s : UIState) (data : CompileResponse)
    (h : truthyStr data.error = false) :
    (compileFinish s (.ok data)).resultOutput =
      "<span class=\"success-icon\">✅</span> Result: <span class=\"result-value\">" ++
        (if truthyStr data.result then data.result.getD "" else "No output") ++ "</span>" := by
  simp [compileFinish, h, setLoadingState, successResultHTML, jsOrElseStr]

/-- C7 witness: a truthy result value is rendered verbatim. -/
theorem C7_success_result_witness :
    (compileFinish idleUI (.ok ⟨none, some "42", some []⟩)).resultOutput =
      "<span class=\"success-icon\">✅</span> Result: <span class=\"result-value\">42</span>" := by
  rw [C7_success_result idleUI ⟨none, some "42", some []⟩ (by decide)]
  decide

/-- C8 counterexample: the claim says an operator name inside a longer word
is left as plain text, but the operator pattern has no word-boundary anchor:
the `Add` inside `Address` is tagged as an operator. -/
theorem C8_counterexample :
    highlightBytecode "Address" = "<span class=\"bytecode-op\">Add</span>ress" ∧
    highlightBytecode "Address" ≠ "Address" := by
  decide

/-! ### The operator-pass characterization (for C8)

The five operator names have pairwise-distinct uppercase initials and
all-lowercase interiors, so occurrences of them in a line never overlap one
another — this is `opNames_no_overlap`, and it is what lets the left-to-right
global-replace scan tag every occurrence, in any context.  The other three
patterns of the highlighter all require a `'('` character, so on a
`'('`-free line the whole four-pass pipeline reduces to the operator pass. -/

theorem dropLit_eq_some : ∀ (p l r : List Char), dropLit p l = some r → l = p ++ r := by
  intro p
  induction p with
  | nil =>
    intro l r h
    simpa [dropLit] using h
  | cons a ps ih =>
    intro l r h
    rcases l with _ | ⟨c, cs⟩
    · simp [dropLit] at h
    · simp only [dropLit] at h
      split at h
      next hc =>
        subst hc
        rw [List.cons_append, ih cs r h]
      next => exact absurd h (by simp)

theorem dropLit_append : ∀ (p r : List Char), dropLit p (p ++ r) = some r := by
  intro p
  induction p with
  | nil => intro r; rfl
  | cons a ps ih => intro r; simp [dropLit, ih]

theorem matchOpName_eq_some (name l rep : List Char) (k : Nat)
    (h : matchOpName name l = some (rep, k)) :
    (∃ r, l = name ++ r) ∧ rep = opTag name ∧ k = name.length := by
  unfold matchOpName at h
  rcases hd : dropLit name l with _ | r
  · rw [hd] at h; exact absurd h (by simp)
  · rw [hd] at h
    simp only [Option.some.injEq, Prod.mk.injEq] at h
    exact ⟨⟨r, dropLit_eq_some name l r hd⟩, by rw [opTag]; exact h.1.symm, h.2.symm⟩

theorem matchOpName_self (name r : List Char) :
    matchOpName name (name ++ r) = some (opTag name, name.length) := by
  unfold matchOpName
  rw [dropLit_append]
  rfl

theorem matchOpName_ne_head (a : Char) (ps : List Char) (c : Char) (cs : List Char)
    (hne : c ≠ a) : matchOpName (a :: ps) (c :: cs) = none := by
  unfold matchOpName dropLit
  rw [if_neg hne]

theorem matchOp_eq_some (l rep : List Char) (k : Nat) (h : matchOp l = some (rep, k)) :
    ∃ n1, n1 ∈ opNamesL ∧ (∃ r, l = n1 ++ r) ∧ rep = opTag n1 ∧ k = n1.length := by
  unfold matchOp at h
  rcases h1 : matchOpName "Add".data l with _ | p1
  · rw [h1, Option.none_orElse] at h
    rcases h2 : matchOpName "Subtract".data l with _ | p2
    · rw [h2, Option.none_orElse] at h
      rcases h3 : matchOpName "Multiply".data l with _ | p3
      · rw [h3, Option.none_orElse] at h
        rcases h4 : matchOpName "Divide".data l with _ | p4
        · rw [h4, Option.none_orElse] at h
          obtain ⟨hr, hrep, hk⟩ := matchOpName_eq_some _ _ _ _ h
          exact ⟨"Negate".data, by simp [opNamesL], hr, hrep, hk⟩
        · rw [h4, Option.some_orElse] at h
          rw [h] at h4
          obtain ⟨hr, hrep, hk⟩ := matchOpName_eq_some _ _ _ _ h4
          exact ⟨"Divide".data, by simp [opNamesL], hr, hrep, hk⟩
      · rw [h3, Option.some_orElse] at h
        rw [h] at h3
        obtain ⟨hr, hrep, hk⟩ := matchOpName_eq_some _ _ _ _ h3
        exact ⟨"Multiply".data, by simp [opNamesL], hr, hrep, hk⟩
    · rw [h2, Option.some_orElse] at h
      rw [h] at h2
      obtain ⟨hr, hrep, hk⟩ := matchOpName_eq_some _ _ _ _ h2
      exact ⟨"Subtract".data, by simp [opNamesL], hr, hrep, hk⟩
  · rw [h1, Option.some_orElse] at h
    rw [h] at h1
    obtain ⟨hr, hrep, hk⟩ := matchOpName_eq_some _ _ _ _ h1
    exact ⟨"Add".data, by simp [opNamesL], hr, hrep, hk⟩

theorem matchOp_self (n v : List Char) (hmem : n ∈ opNamesL) :
    matchOp (n ++ v) = some (opTag n, n.length) := by
  fin_cases hmem
  · unfold matchOp
    rw [matchOpName_self, Option.some_orElse]
  · have e1 : matchOpName "Add".data ("Subtract".data ++ v) = none :=
      matchOpName_ne_head 'A' "dd".data 'S' ("ubtract".data ++ v) (by decide)
    unfold matchOp
    rw [e1, Option.none_orElse, matchOpName_self, Option.some_orElse]
  · have e1 : matchOpName "Add".data ("Multiply".data ++ v) = none :=
      matchOpName_ne_head 'A' "dd".data 'M' ("ultiply".data ++ v) (by decide)
    have e2 : matchOpName "Subtract".data ("Multiply".data ++ v) = none :=
      matchOpName_ne_head 'S' "ubtract".data 'M' ("ultiply".data ++ v) (by decide)
    unfold matchOp
    rw [e1, Option.none_orElse, e2, Option.none_orElse, matchOpName_self,
        Option.some_orElse]
  · have e1 : matchOpName "Add".data ("Divide".data ++ v) = none :=
      matchOpName_ne_head 'A' "dd".data 'D' ("ivide".data ++ v) (by decide)
    have e2 : matchOpName "Subtract".data ("Divide".data ++ v) = none :=
      matchOpName_ne_head 'S' "ubtract".data 'D' ("ivide".data ++ v) (by decide)
    have e3 : matchOpName "Multiply".data ("Divide".data ++ v) = none :=
      matchOpName_ne_head 'M' "ultiply".data 'D' ("ivide".data ++ v) (by decide)
    unfold matchOp
    rw [e1, Option.none_orElse, e2, Option.none_orElse, e3, Option.none_orElse,
        matchOpName_self, Option.some_orElse]
  · have e1 : matchOpName "Add".data ("Negate".data ++ v) = none :=
      matchOpName_ne_head 'A' "dd".data 'N' ("egate".data ++ v) (by decide)
    have e2 : matchOpName "Subtract".data ("Negate".data ++ v) = none :=
      matchOpName_ne_head 'S' "ubtract".data 'N' ("egate".data ++ v) (by decide)
    have e3 : matchOpName "Multiply".data ("Negate".data ++ v) = none :=
      matchOpName_ne_head 'M' "ultiply".data 'N' ("egate".data ++ v) (by decide)
    have e4 : matchOpName "Divide".data ("Negate".data ++ v) = none :=
      matchOpName_ne_head 'D' "ivide".data 'N' ("egate".data ++ v) (by decide)
    unfold matchOp
    rw [e1, Option.none_orElse, e2, Option.none_orElse, e3, Option.none_orElse,
        e4, Option.none_orElse, matchOpName_self]

theorem opName_ne_nil : ∀ n ∈ opNamesL, n ≠ [] := by decide

theorem opNames_no_overlap :
    ∀ n0 ∈ opNamesL, ∀ n ∈ opNamesL, ∀ j < n0.length, 0 < j → n0[j]? ≠ n[0]? := by
  decide

theorem opTag_no_paren : ∀ n ∈ opNamesL, ∀ c ∈ opTag n, c ≠ '(' := by decide

theorem jsReplaceGo_cons_some (m : List Char → Option (List Char × Nat)) (fuel : Nat)
    (c : Char) (rest rep : List Char) (k : Nat) (hm : m (c :: rest) = some (rep, k)) :
    jsReplaceGo m (fuel + 1) (c :: rest) = rep ++ jsReplaceGo m fuel (rest.drop (k - 1)) := by
  simp [jsReplaceGo, hm]

theorem jsReplaceGo_cons_none (m : List Char → Option (List Char × Nat)) (fuel : Nat)
    (c : Char) (rest : List Char) (hm : m (c :: rest) = none) :
    jsReplaceGo m (fuel + 1) (c :: rest) = c :: jsReplaceGo m fuel rest := by
  simp [jsReplaceGo, hm]

theorem jsReplaceGo_matchOp_tags (fuel : Nat) :
    ∀ (u n0 v : List Char), n0 ∈ opNamesL → (u ++ (n0 ++ v)).length ≤ fuel →
      ∃ x y, jsReplaceGo matchOp fuel (u ++ (n0 ++ v)) = x ++ (opTag n0 ++ y) := by
  induction fuel with
  | zero =>
    intro u n0 v hmem hlen
    exfalso
    have hne := opName_ne_nil n0 hmem
    rcases n0 with _ | ⟨c0, t0⟩
    · exact hne rfl
    · simp only [List.length_append, List.length_cons, Nat.le_zero] at hlen
      omega
  | succ fuel ih =>
    intro u n0 v hmem hlen
    rcases u with _ | ⟨c, u'⟩
    · have hne := opName_ne_nil n0 hmem
      have hm := matchOp_self n0 v hmem
      rcases n0 with _ | ⟨c0, t0⟩
      · exact absurd rfl hne
      · refine ⟨[], jsReplaceGo matchOp fuel v, ?_⟩
        have step := jsReplaceGo_cons_some matchOp fuel c0 (t0 ++ v)
          (opTag (c0 :: t0)) ((c0 :: t0).length) hm
        simp only [List.nil_append, List.cons_append]
        rw [step, List.length_cons, Nat.add_sub_cancel, List.drop_left]
    · rcases hm : matchOp (c :: (u' ++ (n0 ++ v))) with _ | ⟨rep, k⟩
      · obtain ⟨x, y, hxy⟩ := ih u' n0 v hmem (by
          simp only [List.length_append, List.length_cons] at hlen ⊢
          omega)
        refine ⟨c :: x, y, ?_⟩
        rw [List.cons_append, jsReplaceGo_cons_none matchOp fuel c _ hm, hxy,
            List.cons_append]
      · obtain ⟨n1, hmem1, ⟨r, hr⟩, hrep, hk⟩ := matchOp_eq_some _ _ _ hm
        have hne1 := opName_ne_nil n1 hmem1
        have hne0 := opName_ne_nil n0 hmem
        have hle : n1.length ≤ u'.length + 1 := by
          by_contra hgt
          push_neg at hgt
          have e1 : (n1 ++ r)[u'.length + 1]? = n1[u'.length + 1]? :=
            List.getElem?_append_left hgt
          have e2 : (n1 ++ r)[u'.length + 1]? = n0[0]? := by
            rw [← hr]
            show ((c :: u') ++ (n0 ++ v))[u'.length + 1]? = n0[0]?
            rw [List.getElem?_append_right (by simp)]
            simp only [List.length_cons, Nat.sub_self]
            rcases n0 with _ | ⟨c0, t0⟩
            · exact absurd rfl hne0
            · simp
          have hno := opNames_no_overlap n1 hmem1 n0 hmem (u'.length + 1) hgt
            (Nat.succ_pos _)
          rw [e1] at e2
          exact hno e2
        subst hrep
        subst hk
        rcases n1 with _ | ⟨c1, t1⟩
        · exact absurd rfl hne1
        · have hle2 : t1.length ≤ u'.length := by
            simp only [List.length_cons] at hle
            omega
          have hdrop : (u' ++ (n0 ++ v)).drop t1.length =
              u'.drop t1.length ++ (n0 ++ v) :=
            List.drop_append_of_le_length hle2
          obtain ⟨x, y, hxy⟩ := ih (u'.drop t1.length) n0 v hmem (by
            simp only [List.length_append, List.length_cons, List.length_drop]
              at hlen ⊢
            omega)
          refine ⟨opTag (c1 :: t1) ++ x, y, ?_⟩
          rw [List.cons_append,
              jsReplaceGo_cons_some matchOp fuel c _ (opTag (c1 :: t1))
                ((c1 :: t1).length) hm,
              List.length_cons, Nat.add_sub_cancel, hdrop, hxy, List.append_assoc]

theorem jsReplace_matchOp_tags (u n0 v : List Char) (hmem : n0 ∈ opNamesL) :
    ∃ x y, jsReplace matchOp (u ++ (n0 ++ v)) = x ++ (opTag n0 ++ y) :=
  jsReplaceGo_matchOp_tags (u ++ (n0 ++ v)).length u n0 v hmem (Nat.le_refl _)

theorem noParen_matchPush (l : List Char) (h : ∀ c ∈ l, c ≠ '(') :
    matchPush l = none := by
  rcases hd : dropLit "Push(".data l with _ | r
  · simp [matchPush, hd]
  · exfalso
    have hl := dropLit_eq_some _ _ _ hd
    exact h '(' (by rw [hl]; exact List.mem_append_left _ (by decide)) rfl

theorem noParen_matchJumpKw (kw l : List Char) (h : ∀ c ∈ l, c ≠ '(') :
    matchJumpKw kw l = none := by
  rcases hd : dropLit (kw ++ ['(']) l with _ | r
  · simp [matchJumpKw, hd]
  · exfalso
    have hl := dropLit_eq_some _ _ _ hd
    refine h '(' ?_ rfl
    rw [hl]
    exact List.mem_append_left _ (List.mem_append_right _ (by simp))

theorem noParen_matchJump (l : List Char) (h : ∀ c ∈ l, c ≠ '(') :
    matchJump l = none := by
  rw [matchJump, noParen_matchJumpKw "Jump".data l h,
      noParen_matchJumpKw "JumpIfFalse".data l h, Option.none_orElse]

theorem noParen_matchVarKw (kw l : List Char) (h : ∀ c ∈ l, c ≠ '(') :
    matchVarKw kw l = none := by
  rcases hd : dropLit (kw ++ "Variable(\"".data) l with _ | r
  · simp [matchVarKw, hd]
  · exfalso
    have hl := dropLit_eq_some _ _ _ hd
    refine h '(' ?_ rfl
    rw [hl]
    exact List.mem_append_left _ (List.mem_append_right _ (by decide))

theorem noParen_matchVar (l : List Char) (h : ∀ c ∈ l, c ≠ '(') :
    matchVar l = none := by
  rw [matchVar, noParen_matchVarKw "Load".data l h,
      noParen_matchVarKw "Store".data l h, Option.none_orElse]

theorem jsReplaceGo_id (m : List Char → Option (List Char × Nat))
    (hm : ∀ l, (∀ c ∈ l, c ≠ '(') → m l = none) :
    ∀ (fuel : Nat) (l : List Char), (∀ c ∈ l, c ≠ '(') → jsReplaceGo m fuel l = l := by
  intro fuel
  induction fuel with
  | zero => intro l _; rfl
  | succ fuel ih =>
    intro l h
    rcases l with _ | ⟨c, rest⟩
    · rfl
    · rw [jsReplaceGo_cons_none m fuel c rest (hm _ h),
          ih rest (fun c2 hc2 => h c2 (List.mem_cons_of_mem _ hc2))]

theorem opPass_no_paren :
    ∀ (fuel : Nat) (l : List Char), (∀ c ∈ l, c ≠ '(') →
      ∀ c ∈ jsReplaceGo matchOp fuel l, c ≠ '(' := by
  intro fuel
  induction fuel with
  | zero => intro l h; exact h
  | succ fuel ih =>
    intro l h
    rcases l with _ | ⟨c, rest⟩
    · intro c2 hc2
      exact absurd hc2 (List.not_mem_nil c2)
    · rcases hm : matchOp (c :: rest) with _ | ⟨rep, k⟩
      · rw [jsReplaceGo_cons_none matchOp fuel c rest hm]
        intro c2 hc2
        rcases List.mem_cons.1 hc2 with rfl | hc2
        · exact h c2 (List.mem_cons_self _ _)
        · exact ih rest (fun c3 hc3 => h c3 (List.mem_cons_of_mem _ hc3)) c2 hc2
      · rw [jsReplaceGo_cons_some matchOp fuel c rest rep k hm]
        intro c2 hc2
        rcases List.mem_append.1 hc2 with hc2 | hc2
        · obtain ⟨n1, hmem1, _, hrep, _⟩ := matchOp_eq_some _ _ _ hm
          subst hrep
          exact opTag_no_paren n1 hmem1 c2 hc2
        · refine ih (rest.drop (k - 1)) ?_ c2 hc2
          intro c3 hc3
          exact h c3 (List.mem_cons_of_mem _ (List.mem_of_mem_drop hc3))

theorem highlightBytecode_noParen (s : String) (h : ∀ c ∈ s.data, c ≠ '(') :
    highlightBytecode s = ⟨jsReplace matchOp s.data⟩ := by
  unfold highlightBytecode jsReplace
  rw [jsReplaceGo_id matchPush noParen_matchPush s.data.length s.data h]
  have ho : ∀ c ∈ jsReplaceGo matchOp s.data.length s.data, c ≠ '(' :=
    opPass_no_paren s.data.length s.data h
  rw [jsReplaceGo_id matchJump noParen_matchJump _ _ ho,
      jsReplaceGo_id matchVar noParen_matchVar _ _ ho]

/-- C8 (amended): the operator pattern has no word-boundary anchor: in every
line, the operator replace pass tags every case-sensitive occurrence of the
literal names `Add`, `Subtract`, `Multiply`, `Divide`, `Negate` — whatever
the surrounding context, including occurrences embedded in longer words and
several occurrences per line.  On every line free of the character `'('`
(which all three remaining patterns require) the whole highlighter is exactly
this pass, so each such occurrence is operator-tagged in the final output;
`AddxAdd` shows two embedded occurrences both tagged, and a case mismatch
(`add ADD`) is left as plain text. -/
theorem C8_operator_tagging :
    (∀ (u n0 v : List Char), n0 ∈ opNamesL →
      ∃ x y, jsReplace matchOp (u ++ (n0 ++ v)) = x ++ (opTag n0 ++ y)) ∧
    (∀ s : String, (∀ c ∈ s.data, c ≠ '(') →
      highlightBytecode s = ⟨jsReplace matchOp s.data⟩) ∧
    (∀ (u n0 v : List Char), n0 ∈ opNamesL → (∀ c ∈ u ++ (n0 ++ v), c ≠ '(') →
      ∃ x y, (highlightBytecode ⟨u ++ (n0 ++ v)⟩).data = x ++ (opTag n0 ++ y)) ∧
    highlightBytecode "AddxAdd" =
      "<span class=\"bytecode-op\">Add</span>x<span class=\"bytecode-op\">Add</span>" ∧
    highlightBytecode "add ADD" = "add ADD" := by
  refine ⟨jsReplace_matchOp_tags, highlightBytecode_noParen, ?_, by decide, by decide⟩
  intro u n0 v hmem hnp
  rw [highlightBytecode_noParen ⟨u ++ (n0 ++ v)⟩ hnp]
  exact jsReplace_matchOp_tags u n0 v hmem

/-- C8 witness: the name `Add` embedded in the longer word `xAddx` is tagged
by the operator pass. -/
theorem C8_operator_tagging_witness :
    ∃ x y, jsReplace matchOp ("x".data ++ ("Add".data ++ "x".data)) =
      x ++ (opTag "Add".data ++ y) :=
  C8_operator_tagging.1 "x".data "Add".data "x".data (by decide)

/-- C1: evidence for the missing re-entrancy guard.  With the first attempt
still in flight (trigger disabled, i.e. `Compiling`), a Ctrl+Enter keydown
still enters the controller — the listener performs no state check — and the
entry point itself issues a second network request instead of ignoring the
call. -/
theorem C1_reentrant_call_issues_second_request :
    inFlightUI.compileBtnDisabled = true ∧
    keydownTriggersCompile { ctrlKey := true, metaKey := false, key := "Enter" } = true ∧
    (keydownStep { ctrlKey := true, metaKey := false, key := "Enter" } inFlightUI).2 =
      some { source := "int x = 1;", language := "custom" } := by
  decide

/-! ### The diagnostic-parser characterization (for C3) -/

theorem takeWhile_middle (p : Char → Bool) (xs : List Char) (y : Char) (ys : List Char)
    (hx : ∀ x ∈ xs, p x = true) (hy : p y = false) :
    (xs ++ y :: ys).takeWhile p = xs := by
  induction xs with
  | nil => simp [List.takeWhile_cons, hy]
  | cons a t ih =>
    have ha : p a = true := hx a (by simp)
    have ht := ih (fun x hx2 => hx x (by simp [hx2]))
    simp [List.takeWhile_cons, ha, ht]

theorem dropWhile_middle (p : Char → Bool) (xs : List Char) (y : Char) (ys : List Char)
    (hx : ∀ x ∈ xs, p x = true) (hy : p y = false) :
    (xs ++ y :: ys).dropWhile p = y :: ys := by
  induction xs with
  | nil => simp [List.dropWhile_cons, hy]
  | cons a t ih =>
    have ha : p a = true := hx a (by simp)
    have ht := ih (fun x hx2 => hx x (by simp [hx2]))
    simp [List.dropWhile_cons, ha, ht]

theorem matchAtPat_decomp (l g1 g2 : List Char) (h : matchAtPat l = some (g1, g2)) :
    ∃ post, l = 'a' :: 't' :: ' ' :: (g1 ++ ':' :: (g2 ++ post)) ∧
      g1 ≠ [] ∧ g2 ≠ [] ∧ (∀ c ∈ g1, c.isDigit = true) ∧ (∀ c ∈ g2, c.isDigit = true) := by
  rcases l with _ | ⟨c1, _ | ⟨c2, _ | ⟨c3, rest⟩⟩⟩
  · simp [matchAtPat] at h
  · simp [matchAtPat] at h
  · simp [matchAtPat] at h
  · simp only [matchAtPat] at h
    split at h
    next habc =>
      obtain ⟨ha, ht, hsp⟩ := habc
      subst ha; subst ht; subst hsp
      split at h
      next => exact absurd h (by simp)
      next hd1 =>
        split at h
        next c4 r2 hdw =>
          split at h
          next hc4 =>
            subst hc4
            split at h
            next => exact absurd h (by simp)
            next hd2 =>
              simp only [Option.some.injEq, Prod.mk.injEq] at h
              obtain ⟨hg1, hg2⟩ := h
              refine ⟨r2.dropWhile Char.isDigit, ?_, ?_, ?_, ?_, ?_⟩
              · have e1 : rest = g1 ++ ':' :: r2 := by
                  rw [← hg1, ← hdw, List.takeWhile_append_dropWhile]
                have e2 : r2 = g2 ++ r2.dropWhile Char.isDigit := by
                  rw [← hg2, List.takeWhile_append_dropWhile]
                rw [e1, ← e2]
              · rw [← hg1]; exact hd1
              · rw [← hg2]; exact hd2
              · intro c hc; rw [← hg1] at hc; exact List.mem_takeWhile_imp hc
              · intro c hc; rw [← hg2] at hc; exact List.mem_takeWhile_imp hc
          next => exact absurd h (by simp)
        next hdw => exact absurd h (by simp)
    next => exact absurd h (by simp)

theorem findAtMatch_decomp (l g1 g2 : List Char) (h : findAtMatch l = some (g1, g2)) :
    ∃ pre post, l = pre ++ 'a' :: 't' :: ' ' :: (g1 ++ ':' :: (g2 ++ post)) ∧
      g1 ≠ [] ∧ g2 ≠ [] ∧ (∀ c ∈ g1, c.isDigit = true) ∧ (∀ c ∈ g2, c.isDigit = true) := by
  induction l with
  | nil => simp [findAtMatch] at h
  | cons c rest ih =>
    simp only [findAtMatch] at h
    rcases hm : matchAtPat (c :: rest) with _ | r
    · rw [hm] at h
      obtain ⟨pre, post, hl, h1, h2, h3, h4⟩ := ih h
      exact ⟨c :: pre, post, by rw [List.cons_append, ← hl], h1, h2, h3, h4⟩
    · rw [hm] at h
      obtain rfl : r = (g1, g2) := by injection h
      obtain ⟨post, hl, h1, h2, h3, h4⟩ := matchAtPat_decomp _ _ _ hm
      exact ⟨[], post, by simpa using hl, h1, h2, h3, h4⟩

theorem matchAtPat_of_decomp (a b post : List Char) (ha : a ≠ []) (hb : b ≠ [])
    (hda : ∀ c ∈ a, c.isDigit = true) (hdb : ∀ c ∈ b, c.isDigit = true) :
    (matchAtPat ('a' :: 't' :: ' ' :: (a ++ ':' :: (b ++ post)))).isSome = true := by
  have hcolon : (':' : Char).isDigit = false := by decide
  have htw := takeWhile_middle Char.isDigit a ':' (b ++ post) hda hcolon
  have hdw := dropWhile_middle Char.isDigit a ':' (b ++ post) hda hcolon
  simp only [matchAtPat]
  rw [htw, hdw, if_neg ha, if_pos ⟨trivial, trivial, trivial⟩]
  rcases b with _ | ⟨c, t⟩
  · exact absurd rfl hb
  · have hc : c.isDigit = true := hdb c (by simp)
    simp [List.takeWhile_cons_of_pos hc]

theorem findAtMatch_isSome_head (c : Char) (rest : List Char)
    (h : (matchAtPat (c :: rest)).isSome = true) :
    (findAtMatch (c :: rest)).isSome = true := by
  simp only [findAtMatch]
  rcases hm : matchAtPat (c :: rest) with _ | r
  · rw [hm] at h; simp at h
  · simp

theorem findAtMatch_isSome_append (pre l : List Char)
    (h : (findAtMatch l).isSome = true) :
    (findAtMatch (pre ++ l)).isSome = true := by
  induction pre with
  | nil => simpa using h
  | cons c t ih =>
    rw [List.cons_append]
    simp only [findAtMatch]
    rcases hm : matchAtPat (c :: (t ++ l)) with _ | r
    · simpa using ih
    · simp

theorem findAtMatch_groups (l g1 g2 : List Char) (h : findAtMatch l = some (g1, g2)) :
    g1 ≠ [] ∧ g2 ≠ [] ∧ (∀ c ∈ g1, c.isDigit = true) ∧ (∀ c ∈ g2, c.isDigit = true) := by
  obtain ⟨pre, post, _, h1, h2, h3, h4⟩ := findAtMatch_decomp l g1 g2 h
  exact ⟨h1, h2, h3, h4⟩

/-- C3: `locate` resolves a location exactly when the text contains the
substring pattern `at <line>:<column>` with decimal integers; on a match the
location is `(parsedLine - 1, parsedColumn - 1)` — and since the column
capture group is a digit string, its parse never fails, so the column is in
fact always present alongside the line (the claim's column-absent fallback is
the degenerate case that cannot fire).  The two concrete spec examples are
included. -/
theorem C3_locate :
    (∀ t : String, (locate t).isSome = true ↔ ContainsAtPattern t) ∧
    locate "Parse error at 3:7" = some ⟨2, some 6⟩ ∧
    locate "Unexpected end of input" = none ∧
    (∀ (t : String) (g1 g2 : List Char), findAtMatch t.data = some (g1, g2) →
      locate t = some ⟨decIntVal g1 - 1, some (decIntVal g2 - 1)⟩) := by
  refine ⟨?_, by decide, by decide, ?_⟩
  · intro t
    constructor
    · intro hs
      rcases hm : findAtMatch t.data with _ | ⟨g1, g2⟩
      · simp [locate, hm] at hs
      · obtain ⟨pre, post, hl, h1, h2, h3, h4⟩ := findAtMatch_decomp _ _ _ hm
        exact ⟨pre, g1, g2, post, hl, h1, h2, h3, h4⟩
    · rintro ⟨pre, a, b, post, hl, h1, h2, h3, h4⟩
      have hm := matchAtPat_of_decomp a b post h1 h2 h3 h4
      have hf := findAtMatch_isSome_append pre _ (findAtMatch_isSome_head _ _ hm)
      rw [← hl] at hf
      rcases hm2 : findAtMatch t.data with _ | r
      · rw [hm2] at hf; simp at hf
      · simp [locate, hm2]
  · intro t g1 g2 h
    obtain ⟨h1, h2, h3, h4⟩ := findAtMatch_groups _ _ _ h
    have hnan : jsParseIntNaN g2 = false := by
      rcases g2 with _ | ⟨c, t2⟩
      · exact absurd rfl h2
      · have hc : c.isDigit = true := h4 c (by simp)
        simp [jsParseIntNaN, List.takeWhile_cons_of_pos hc]
    simp [locate, h, hnan]

/-- C3 witness: the concrete spec example contains the pattern, via the
characterization applied at `"Parse error at 3:7"`. -/
theorem C3_locate_witness : ContainsAtPattern "Parse error at 3:7" :=
  (C3_locate.1 "Parse error at 3:7").mp (by decide)

end CompilerUI
